import Mathlib

/-!
Verification development for the financial-ledger core of the
whatsapp-bot-api repository: wallet balances (src/models/wallet.model.ts),
the transaction ledger (src/models/transactions.model.ts), payment and
top-up workflows, the fee schedule, the sequential safe-deposit identifier
allocator (src/models/safe.model.ts) and the date-salted random identifier
generators.  Monetary amounts are embedded as rationals; JavaScript strings
are embedded as Lean strings (lists of characters); throwing instance
methods are embedded as functions returning an error component together
with the (unchanged, since every throw precedes every mutation) record.
-/

/- ==================== Wallet (src/models/wallet.model.ts) ==================== -/

inductive WalletStatus
  | ACTIVE | BLOCKED | FROZEN
deriving DecidableEq

structure Wallet where
  primaryWalletBalance : ℚ
  safeWalletBalance : ℚ
  status : WalletStatus
deriving DecidableEq

/-- The two throwing failure modes of the wallet instance methods:
`Amount cannot be negative` (the spec's InvalidAmount) and
`Insufficient balance in ... wallet` (the spec's InsufficientFunds). -/
inductive WalletError
  | invalidAmount | insufficientFunds
deriving DecidableEq

/-- `walletSchema.methods.addToPrimaryBalance` -/
def addToPrimaryBalance (w : Wallet) (amount : ℚ) : Option WalletError × Wallet :=
  if amount < 0 then (some .invalidAmount, w)
  else (none, { w with primaryWalletBalance := w.primaryWalletBalance + amount })

/-- `walletSchema.methods.subtractFromPrimaryBalance` -/
def subtractFromPrimaryBalance (w : Wallet) (amount : ℚ) : Option WalletError × Wallet :=
  if amount < 0 then (some .invalidAmount, w)
  else if w.primaryWalletBalance < amount then (some .insufficientFunds, w)
  else (none, { w with primaryWalletBalance := w.primaryWalletBalance - amount })

/-- `walletSchema.methods.addToSafeBalance` -/
def addToSafeBalance (w : Wallet) (amount : ℚ) : Option WalletError × Wallet :=
  if amount < 0 then (some .invalidAmount, w)
  else (none, { w with safeWalletBalance := w.safeWalletBalance + amount })

/-- `walletSchema.methods.subtractFromSafeBalance` -/
def subtractFromSafeBalance (w : Wallet) (amount : ℚ) : Option WalletError × Wallet :=
  if amount < 0 then (some .invalidAmount, w)
  else if w.safeWalletBalance < amount then (some .insufficientFunds, w)
  else (none, { w with safeWalletBalance := w.safeWalletBalance - amount })

/-- The sub-account tag (`wallet` field, PRIMARY | SAFE). -/
inductive SubWallet
  | PRIMARY | SAFE
deriving DecidableEq

/-- The spec's `credit(wallet, amount)`, dispatching to the add method of
the named sub-balance. -/
def credit (w : Wallet) (s : SubWallet) (amount : ℚ) : Option WalletError × Wallet :=
  match s with
  | .PRIMARY => addToPrimaryBalance w amount
  | .SAFE => addToSafeBalance w amount

/-- The spec's `debit(wallet, amount)`, dispatching to the subtract method
of the named sub-balance. -/
def debit (w : Wallet) (s : SubWallet) (amount : ℚ) : Option WalletError × Wallet :=
  match s with
  | .PRIMARY => subtractFromPrimaryBalance w amount
  | .SAFE => subtractFromSafeBalance w amount

def subBalance (w : Wallet) : SubWallet → ℚ
  | .PRIMARY => w.primaryWalletBalance
  | .SAFE => w.safeWalletBalance

def SubWallet.other : SubWallet → SubWallet
  | .PRIMARY => .SAFE
  | .SAFE => .PRIMARY

/-- Wallet states reachable per the spec: creation with both balances zero,
then any sequence of successful credits and debits. -/
inductive ReachableWallet : Wallet → Prop
  | init :
      ReachableWallet { primaryWalletBalance := 0, safeWalletBalance := 0, status := .ACTIVE }
  | creditStep (w : Wallet) (s : SubWallet) (a : ℚ) (w' : Wallet) :
      ReachableWallet w → credit w s a = (none, w') → ReachableWallet w'
  | debitStep (w : Wallet) (s : SubWallet) (a : ℚ) (w' : Wallet) :
      ReachableWallet w → debit w s a = (none, w') → ReachableWallet w'

/- ============ Transaction ledger (src/models/transactions.model.ts) ============ -/

inductive TransactionType
  | CREDIT | DEBIT
deriving DecidableEq

inductive TransactionCategory
  | WALLET_TOP_UP | CC_PAYMENT | BANK_TRANSFER_PAYMENT | ADMIN_DEDUCTION
  | WALLET_TRANSFER | INTEREST_CREDIT | REFUND | FEE_CHARGE | REWARDS
  | SAFE_WITHDRAW | SAFE_DEPOSIT
deriving DecidableEq

inductive TransactionStatus
  | PENDING | COMPLETED | FAILED | CANCELLED
deriving DecidableEq

structure Transaction where
  transactionId : String
  userId : String
  type : TransactionType
  amount : ℚ
  category : TransactionCategory
  status : TransactionStatus
  wallet : SubWallet
deriving DecidableEq

/-- The error the spec assigns to a transition attempted from a terminal
state.  The result type of every embedded transition method carries it so
the spec's claims are statable; the methods in the source never raise it. -/
inductive TransitionError
  | illegalStateTransition
deriving DecidableEq

/-- `transactionSchema.methods.markAsCompleted`: unconditional assignment
`this.status = COMPLETED`. -/
def Transaction.markAsCompleted (t : Transaction) : Except TransitionError Transaction :=
  .ok { t with status := .COMPLETED }

/-- `transactionSchema.methods.markAsFailed`: unconditional assignment
`this.status = FAILED`. -/
def Transaction.markAsFailed (t : Transaction) : Except TransitionError Transaction :=
  .ok { t with status := .FAILED }

/-- `transactionSchema.methods.markAsCancelled`: unconditional assignment
`this.status = CANCELLED`. -/
def Transaction.markAsCancelled (t : Transaction) : Except TransitionError Transaction :=
  .ok { t with status := .CANCELLED }

/-- `transactionSchema.methods.updateStatus`: unconditional assignment of
the given status. -/
def Transaction.updateStatus (t : Transaction) (s : TransactionStatus) :
    Except TransitionError Transaction :=
  .ok { t with status := s }

def TransactionStatus.isTerminal : TransactionStatus → Bool
  | .PENDING => false
  | .COMPLETED => true
  | .FAILED => true
  | .CANCELLED => true

/- ============ Payment intake (paymentSchema, src/unnamed/part_002) ============ -/

inductive PaymentType
  | CC_PAYMENT | BANK_TRANSFER | OTHERS
deriving DecidableEq

inductive PaymentStatus
  | PENDING | COMPLETED | FAILED
deriving DecidableEq

/-- Milliseconds since the epoch, the value of a JavaScript `new Date()`. -/
abbrev Instant := Nat

structure Payment where
  paymentId : String
  userId : String
  type : PaymentType
  amount : ℚ
  fee : ℚ
  status : PaymentStatus
  actionTime : Option Instant
  actionReason : Option String
deriving DecidableEq

/-- `paymentSchema.methods.complete`: sets COMPLETED and `actionTime`,
with no check of the current status. -/
def Payment.complete (p : Payment) (now : Instant) : Except TransitionError Payment :=
  .ok { p with status := .COMPLETED, actionTime := some now }

/-- `paymentSchema.methods.fail`: sets FAILED, `actionTime` and
`actionReason`, with no check of the current status. -/
def Payment.fail (p : Payment) (now : Instant) (reason : String) :
    Except TransitionError Payment :=
  .ok { p with status := .FAILED, actionTime := some now, actionReason := some reason }

def PaymentStatus.isTerminal : PaymentStatus → Bool
  | .PENDING => false
  | .COMPLETED => true
  | .FAILED => true

/- ======= Top-up requests (walletTopUpRequestSchema, src/unnamed/part_003) ======= -/

inductive TopUpMethod
  | UPI | CASH_DEPOSIT | NEFT | RTGS | IMPS | OFFICE_DEPOSIT
deriving DecidableEq

inductive TopUpStatus
  | PENDING | SUCCESS | REJECTED
deriving DecidableEq

structure TopUp where
  requestId : String
  userId : String
  amount : ℚ
  method : TopUpMethod
  wallet : SubWallet
  status : TopUpStatus
  approvalTime : Option Instant
  rejectionTime : Option Instant
  rejectionReason : Option String
deriving DecidableEq

/-- `walletTopUpRequestSchema.methods.approve`: sets SUCCESS and
`approvalTime`, with no check of the current status and no other effect
(in particular it takes no wallet and credits nothing). -/
def TopUp.approve (r : TopUp) (now : Instant) : Except TransitionError TopUp :=
  .ok { r with status := .SUCCESS, approvalTime := some now }

/-- `walletTopUpRequestSchema.methods.reject`: sets REJECTED,
`rejectionTime` and `rejectionReason`, with no check of the current status. -/
def TopUp.reject (r : TopUp) (now : Instant) (reason : String) :
    Except TransitionError TopUp :=
  .ok { r with status := .REJECTED, rejectionTime := some now, rejectionReason := some reason }

def TopUpStatus.isTerminal : TopUpStatus → Bool
  | .PENDING => false
  | .SUCCESS => true
  | .REJECTED => true

/- =============== Fee schedule (src/models/fee.model.ts) =============== -/

inductive FeeType
  | FLAT | PERCENTAGE
deriving DecidableEq

structure Fee where
  feeId : String
  paymentType : PaymentType
  feeType : FeeType
  fee : ℚ
  minAmount : ℚ
  maxAmount : ℚ
  anyUpperLimit : Bool
deriving DecidableEq

/-- Modelled from the spec: the repository's src/ contains only the fee
schema (fields feeType, fee, minAmount, maxAmount, anyUpperLimit); no
`resolve` implementation is present anywhere in the sources.  Following
the spec's words: for FLAT, the configured flat amount; for PERCENTAGE,
`amount * fee / 100` clamped to [minAmount, maxAmount] unless
`anyUpperLimit` is set, in which case only the floor applies. -/
def resolve (f : Fee) (amount : ℚ) : ℚ :=
  match f.feeType with
  | .FLAT => f.fee
  | .PERCENTAGE =>
      let raw := amount * f.fee / 100
      if f.anyUpperLimit then max f.minAmount raw
      else min f.maxAmount (max f.minAmount raw)

/- =============== Decimal strings (JavaScript `String(n)` etc.) =============== -/

/-- The decimal digit character for a value below ten. -/
def digitChar : Nat → Char
  | 0 => '0' | 1 => '1' | 2 => '2' | 3 => '3' | 4 => '4'
  | 5 => '5' | 6 => '6' | 7 => '7' | 8 => '8' | 9 => '9'
  | _ => '*'

/-- Fuel-driven decimal writer; the fuel only bounds the recursion. -/
def natDigitsAux : Nat → Nat → List Char
  | 0, _ => []
  | fuel + 1, n =>
      if n < 10 then [digitChar n]
      else natDigitsAux fuel (n / 10) ++ [digitChar (n % 10)]

/-- The decimal representation of a natural number, i.e. the character
list of JavaScript `String(n)`. -/
def natDigits (n : Nat) : List Char := natDigitsAux (n + 1) n

/-- JavaScript `padStart(target, c)` on a character list. -/
def jsPadStart (target : Nat) (c : Char) (l : List Char) : List Char :=
  List.replicate (target - l.length) c ++ l

/-- The numeric value of a decimal digit character. -/
def digitVal (c : Char) : Nat := c.toNat - 48

/-- The `\d` character class of the allocator's regular expressions. -/
def isDigitChar (c : Char) : Bool := 48 ≤ c.toNat && c.toNat ≤ 57

/-- `parseInt(s, 10)` on a string of decimal digits. -/
def parseL (l : List Char) : Nat := l.foldl (fun a c => 10 * a + digitVal c) 0

/- ====== Sequential safe-deposit allocator (src/models/safe.model.ts) ====== -/

/-- Lexicographic (code-point) strict comparison of character lists: the
order in which the store sorts the `safeId` strings. -/
def lexLt : List Char → List Char → Bool
  | [], [] => false
  | [], _ :: _ => true
  | _ :: _, [] => false
  | a :: as, b :: bs =>
      if a.toNat < b.toNat then true
      else if b.toNat < a.toNat then false
      else lexLt as bs

def strLtB (s t : String) : Bool := lexLt s.data t.data

/-- The regular expression `^SW\d{w}$` of the allocator: the two letters
SW followed by exactly `w` decimal digits. -/
def matchesSW (w : Nat) (s : String) : Bool :=
  s.data.take 2 == ['S', 'W'] && (s.data.drop 2).length == w && (s.data.drop 2).all isDigitChar

/-- One comparison step of the descending sort underlying the store's
`findOne` with `sort safeId -1`: keep the lexicographically later of the
accumulator and the next identifier. -/
def pickLater (acc : Option String) (s : String) : Option String :=
  match acc with
  | none => some s
  | some m => if strLtB m s then some s else some m

/-- `findOne({safeId: regex p}, _, {sort: {safeId: -1}})`: among the
stored identifiers matching `p`, the greatest in lexicographic order. -/
def lastMatching (p : String → Bool) (ids : List String) : Option String :=
  (ids.filter p).foldl pickLater none

/-- One step of a running maximum over numeric identifier values. -/
def maxStep (acc : Option Nat) (v : Nat) : Option Nat :=
  match acc with
  | none => some v
  | some m => some (max m v)

/-- `parseInt(safeId.substring(2), 10)`: the numeric value carried by a
safe-deposit identifier. -/
def keyOf (s : String) : Nat := parseL (s.data.drop 2)

/-- The maximum numeric value among stored identifiers matching `p`
(the specification-level view of `lastMatching`). -/
def maxVal (p : String → Bool) (ids : List String) : Option Nat :=
  ((ids.filter p).map keyOf).foldl maxStep none

/-- `` `SW${String(n).padStart(4, '0')}` `` -/
def fmt4 (n : Nat) : String := String.mk ('S' :: 'W' :: jsPadStart 4 '0' (natDigits n))

/-- `` `SW${String(n).padStart(8, '0')}` `` -/
def fmt8 (n : Nat) : String := String.mk ('S' :: 'W' :: jsPadStart 8 '0' (natDigits n))

/-- The `safeSchema.pre('save')` identifier computation, as a function of
the set of already stored `safeId` strings.  The source's
`nextNumber`/`use8DigitFormat` bookkeeping is flattened into the branch
structure, producing the identifier assigned in each case. -/
def nextSafeId (ids : List String) : String :=
  let lastSafe6Digit := lastMatching (matchesSW 4) ids
  let lastSafe8Digit := lastMatching (matchesSW 8) ids
  match lastSafe6Digit with
  | some s6 =>
      let lastNumber := keyOf s6
      if 9999 ≤ lastNumber then
        match lastSafe8Digit with
        | some s8 => fmt8 (keyOf s8 + 1)
        | none => fmt8 1
      else fmt4 (lastNumber + 1)
  | none =>
      match lastSafe8Digit with
      | some s8 => fmt8 (keyOf s8 + 1)
      | none => fmt4 1

/- ====== Date-salted random identifiers (pre-save hooks of the models) ====== -/

/-- `String(date.getFullYear()).slice(2)`. -/
def yearCode (y : Nat) : List Char := (natDigits y).drop 2

/-- `String(n).padStart(2, '0')`, used for month and day. -/
def pad2 (n : Nat) : List Char := jsPadStart 2 '0' (natDigits n)

/-- The `yymmdd` date salt shared by the pre-save hooks. -/
def dateCode (y m d : Nat) : List Char := yearCode y ++ pad2 m ++ pad2 d

/-- `uuidv4().substring(0, 8).toUpperCase()`, as a function of the random
identifier the generator drew. -/
def tokenOf (uuid : String) : List Char := (uuid.data.take 8).map Char.toUpper

/-- The `C`/`D` letter inserted into transaction identifiers. -/
def typeChar : TransactionType → Char
  | .CREDIT => 'C'
  | .DEBIT => 'D'

/-- `transactionSchema.pre('save')`:
`` `TXN${yymmdd}${typePrefix}${uuid}` ``. -/
def genTransactionId (y m d : Nat) (ty : TransactionType) (uuid : String) : String :=
  String.mk ("TXN".data ++ dateCode y m d ++ [typeChar ty] ++ tokenOf uuid)

/-- `paymentSchema.pre('save')`: `` `PAY${yymmdd}${uuid}` ``. -/
def genPaymentId (y m d : Nat) (uuid : String) : String :=
  String.mk ("PAY".data ++ dateCode y m d ++ tokenOf uuid)

/-- `walletTopUpRequestSchema.pre('save')`: `` `TOPUP${yymmdd}${uuid}` ``. -/
def genTopUpRequestId (y m d : Nat) (uuid : String) : String :=
  String.mk ("TOPUP".data ++ dateCode y m d ++ tokenOf uuid)

/-- `kycSchema.pre('save')` (src/unnamed/part_001): the hook computes the
`yymmdd` salt but the assignment is `` `KYC${uuid}` ``, so the date never
reaches the identifier; the date arguments are accordingly unused. -/
def genKycId (_y _m _d : Nat) (uuid : String) : String :=
  String.mk ("KYC".data ++ tokenOf uuid)

/- ================== Lemmas on decimal character strings ================== -/

theorem natDigitsAux_fuel (f g n : Nat) (hf : n < f) (hg : n < g) :
    natDigitsAux f n = natDigitsAux g n := by
  induction f generalizing g n with
  | zero => omega
  | succ f ih =>
      cases g with
      | zero => omega
      | succ g =>
          show natDigitsAux (f + 1) n = natDigitsAux (g + 1) n
          unfold natDigitsAux
          by_cases h10 : n < 10
          · simp [h10]
          · simp only [h10, if_false]
            have hdf : n / 10 < f := by omega
            have hdg : n / 10 < g := by omega
            rw [ih g (n / 10) hdf hdg]

/-- The defining recursion of `natDigits`. -/
theorem natDigits_eq (n : Nat) :
    natDigits n =
      if n < 10 then [digitChar n] else natDigits (n / 10) ++ [digitChar (n % 10)] := by
  show natDigitsAux (n + 1) n = _
  unfold natDigitsAux
  by_cases h10 : n < 10
  · simp [h10]
  · simp only [h10, if_false]
    rw [natDigitsAux_fuel n (n / 10 + 1) (n / 10) (by omega) (by omega)]
    rfl

theorem digitChar_isDigit : ∀ k, k < 10 → isDigitChar (digitChar k) = true := by decide

theorem digitVal_digitChar : ∀ k, k < 10 → digitVal (digitChar k) = k := by decide

theorem natDigits_all_digits (n : Nat) : ∀ c ∈ natDigits n, isDigitChar c = true := by
  induction n using Nat.strong_induction_on with
  | _ n ih =>
      rw [natDigits_eq]
      by_cases h10 : n < 10
      · simp only [h10, if_true, List.mem_singleton]
        intro c hc
        subst hc
        exact digitChar_isDigit n h10
      · simp only [h10, if_false, List.mem_append, List.mem_singleton]
        intro c hc
        rcases hc with hc | hc
        · exact ih (n / 10) (by omega) c hc
        · subst hc
          exact digitChar_isDigit (n % 10) (by omega)

theorem natDigits_ne_nil (n : Nat) : natDigits n ≠ [] := by
  rw [natDigits_eq]
  by_cases h10 : n < 10 <;> simp [h10]

theorem natDigits_len_le (k : Nat) : ∀ n, n < 10 ^ k → (natDigits n).length ≤ max 1 k := by
  induction k with
  | zero =>
      intro n h
      interval_cases n
      simp [natDigits, natDigitsAux, digitChar]
  | succ k ih =>
      intro n h
      rw [natDigits_eq]
      by_cases h10 : n < 10
      · simp [h10]
      · simp only [h10, if_false, List.length_append, List.length_singleton]
        have hk : 1 ≤ k := by
          by_contra hk0
          have : k = 0 := by omega
          subst this
          simp at h
          omega
        have hdiv : n / 10 < 10 ^ k := by
          rw [Nat.div_lt_iff_lt_mul (by norm_num)]
          calc n < 10 ^ (k + 1) := h
            _ = 10 ^ k * 10 := by ring
        have := ih (n / 10) hdiv
        omega

theorem natDigits_len_ge (k : Nat) : ∀ n, 10 ^ k ≤ n → k + 1 ≤ (natDigits n).length := by
  induction k with
  | zero =>
      intro n _
      have := natDigits_ne_nil n
      cases hh : natDigits n with
      | nil => exact absurd hh this
      | cons a l => simp [hh]
  | succ k ih =>
      intro n h
      have h10 : ¬ n < 10 := by
        have : (10 : Nat) ≤ 10 ^ (k + 1) := by
          calc (10 : Nat) = 10 ^ 1 := by norm_num
            _ ≤ 10 ^ (k + 1) := Nat.pow_le_pow_right (by norm_num) (by omega)
        omega
      rw [natDigits_eq]
      simp only [h10, if_false, List.length_append, List.length_singleton]
      have hdiv : 10 ^ k ≤ n / 10 := by
        rw [Nat.le_div_iff_mul_le (by norm_num)]
        calc 10 ^ k * 10 = 10 ^ (k + 1) := by ring
          _ ≤ n := h
      have := ih (n / 10) hdiv
      omega

theorem parse_foldl_acc (l : List Char) (a : Nat) :
    l.foldl (fun x c => 10 * x + digitVal c) a = a * 10 ^ l.length + parseL l := by
  induction l generalizing a with
  | nil => simp [parseL]
  | cons c l ih =>
      show l.foldl _ (10 * a + digitVal c) = _
      rw [ih (10 * a + digitVal c)]
      have hc : parseL (c :: l) = digitVal c * 10 ^ l.length + parseL l := by
        show l.foldl _ (10 * 0 + digitVal c) = _
        rw [ih (10 * 0 + digitVal c)]
        ring
      rw [hc]
      simp [List.length_cons]
      ring

theorem parseL_append (l r : List Char) :
    parseL (l ++ r) = parseL l * 10 ^ r.length + parseL r := by
  show (l ++ r).foldl _ 0 = _
  rw [List.foldl_append]
  exact parse_foldl_acc r (l.foldl _ 0)

theorem parseL_cons (c : Char) (l : List Char) :
    parseL (c :: l) = digitVal c * 10 ^ l.length + parseL l := by
  have := parseL_append [c] l
  simpa [parseL, digitVal] using this

theorem parseL_natDigits (n : Nat) : parseL (natDigits n) = n := by
  induction n using Nat.strong_induction_on with
  | _ n ih =>
      rw [natDigits_eq]
      by_cases h10 : n < 10
      · simp [h10, parseL, digitVal_digitChar n h10]
      · simp only [h10, if_false]
        rw [parseL_append, ih (n / 10) (by omega)]
        have : parseL [digitChar (n % 10)] = n % 10 := by
          simp [parseL, digitVal_digitChar (n % 10) (by omega)]
        rw [this]
        simp only [List.length_singleton, pow_one]
        omega

theorem parseL_replicate_zero (k : Nat) (l : List Char) :
    parseL (List.replicate k '0' ++ l) = parseL l := by
  rw [parseL_append]
  have : parseL (List.replicate k '0') = 0 := by
    induction k with
    | zero => rfl
    | succ k ih =>
        rw [List.replicate_succ, parseL_cons, ih]
        simp [digitVal]
  rw [this]
  simp

theorem digitVal_le_nine (c : Char) (h : isDigitChar c = true) : digitVal c ≤ 9 := by
  simp only [isDigitChar, Bool.and_eq_true, decide_eq_true_eq] at h
  simp only [digitVal]
  omega

theorem parseL_lt (l : List Char) (h : ∀ c ∈ l, isDigitChar c = true) :
    parseL l < 10 ^ l.length := by
  induction l with
  | nil => simp [parseL]
  | cons c l ih =>
      rw [parseL_cons]
      have hc : digitVal c ≤ 9 := digitVal_le_nine c (h c (by simp))
      have hl : parseL l < 10 ^ l.length := ih (fun x hx => h x (by simp [hx]))
      have : digitVal c * 10 ^ l.length + parseL l < (digitVal c + 1) * 10 ^ l.length := by
        nlinarith
      calc digitVal c * 10 ^ l.length + parseL l
          < (digitVal c + 1) * 10 ^ l.length := this
        _ ≤ 10 * 10 ^ l.length := by nlinarith [pow_pos (show 0 < 10 by norm_num) l.length]
        _ = 10 ^ (c :: l).length := by rw [List.length_cons]; ring

theorem pad2_length (n : Nat) (h : n ≤ 99) : (pad2 n).length = 2 := by
  have hle : (natDigits n).length ≤ 2 := by
    have := natDigits_len_le 2 n (by omega)
    omega
  simp [pad2, jsPadStart, List.length_append, List.length_replicate]
  omega

theorem pad2_parse (n : Nat) : parseL (pad2 n) = n := by
  simp only [pad2, jsPadStart]
  rw [parseL_replicate_zero, parseL_natDigits]

theorem natDigits_len_four (y : Nat) (h1 : 1000 ≤ y) (h2 : y ≤ 9999) :
    (natDigits y).length = 4 := by
  have hle := natDigits_len_le 4 y (by omega)
  have hge := natDigits_len_ge 3 y (by norm_num; omega)
  omega

theorem natDigits_split_hundreds (y : Nat) (h1 : 1000 ≤ y) (h2 : y ≤ 9999) :
    natDigits y =
      natDigits (y / 100) ++ [digitChar (y / 10 % 10), digitChar (y % 10)] := by
  rw [natDigits_eq]
  have h10 : ¬ y < 10 := by omega
  simp only [h10, if_false]
  rw [natDigits_eq (y / 10)]
  have h10' : ¬ y / 10 < 10 := by omega
  simp only [h10', if_false]
  have : y / 10 / 10 = y / 100 := by omega
  rw [this, List.append_assoc]
  have : y / 10 % 10 = y / 10 % 10 := rfl
  simp

theorem yearCode_spec (y : Nat) (h1 : 1000 ≤ y) (h2 : y ≤ 9999) :
    (yearCode y).length = 2 ∧ parseL (yearCode y) = y % 100 := by
  have hsplit := natDigits_split_hundreds y h1 h2
  have hlen : (natDigits (y / 100)).length = 2 := by
    have ha := natDigits_len_le 2 (y / 100) (by omega)
    have hb := natDigits_len_ge 1 (y / 100) (by omega)
    omega
  have hdrop : yearCode y = [digitChar (y / 10 % 10), digitChar (y % 10)] := by
    simp only [yearCode, hsplit]
    rw [← hlen, List.drop_left]
  constructor
  · rw [hdrop]; rfl
  · rw [hdrop, parseL_cons, parseL_cons]
    simp only [parseL, List.foldl_nil, List.length_cons, List.length_nil]
    rw [digitVal_digitChar (y / 10 % 10) (by omega), digitVal_digitChar (y % 10) (by omega)]
    simp only [pow_one, pow_zero]
    omega

theorem tokenOf_length (uuid : String) (h : 8 ≤ uuid.data.length) :
    (tokenOf uuid).length = 8 := by
  have h' : 8 ≤ uuid.length := h
  simp [tokenOf, List.length_map, List.length_take]
  omega

/- ======================= Sample records for witnesses ======================= -/

def txn0 : Transaction :=
  { transactionId := "TXN251011C3F2A9C81", userId := "U1", type := .CREDIT,
    amount := 100, category := .WALLET_TOP_UP, status := .COMPLETED, wallet := .PRIMARY }

def pay0 : Payment :=
  { paymentId := "PAY251011AAAABBBB", userId := "U1", type := .CC_PAYMENT,
    amount := 100, fee := 1, status := .FAILED, actionTime := some 11,
    actionReason := some "card declined" }

def topup0 : TopUp :=
  { requestId := "TOPUP251011AAAABBBB", userId := "U1", amount := 500, method := .UPI,
    wallet := .PRIMARY, status := .PENDING, approvalTime := none,
    rejectionTime := none, rejectionReason := none }

def topup1 : TopUp := { topup0 with status := .SUCCESS, approvalTime := some 10 }

/- ============================ Claim C2 ============================ -/

/-- Claim C2: every wallet reachable from creation (zero balances) through
any sequence of credits and debits has both sub-balances nonnegative. -/
theorem wallet_balances_nonneg (w : Wallet) (h : ReachableWallet w) :
    0 ≤ w.primaryWalletBalance ∧ 0 ≤ w.safeWalletBalance := by
  induction h with
  | init => exact ⟨le_refl 0, le_refl 0⟩
  | creditStep w s a w' hw heq ih =>
      cases s with
      | PRIMARY =>
          by_cases hA : a < 0
          · simp [credit, addToPrimaryBalance, hA] at heq
          · simp [credit, addToPrimaryBalance, hA] at heq
            cases heq
            exact ⟨add_nonneg ih.1 (not_lt.mp hA), ih.2⟩
      | SAFE =>
          by_cases hA : a < 0
          · simp [credit, addToSafeBalance, hA] at heq
          · simp [credit, addToSafeBalance, hA] at heq
            cases heq
            exact ⟨ih.1, add_nonneg ih.2 (not_lt.mp hA)⟩
  | debitStep w s a w' hw heq ih =>
      cases s with
      | PRIMARY =>
          by_cases hA : a < 0
          · simp [debit, subtractFromPrimaryBalance, hA] at heq
          · by_cases hB : w.primaryWalletBalance < a
            · simp [debit, subtractFromPrimaryBalance, hA, hB] at heq
            · simp [debit, subtractFromPrimaryBalance, hA, hB] at heq
              cases heq
              exact ⟨sub_nonneg.mpr (not_lt.mp hB), ih.2⟩
      | SAFE =>
          by_cases hA : a < 0
          · simp [debit, subtractFromSafeBalance, hA] at heq
          · by_cases hB : w.safeWalletBalance < a
            · simp [debit, subtractFromSafeBalance, hA, hB] at heq
            · simp [debit, subtractFromSafeBalance, hA, hB] at heq
              cases heq
              exact ⟨ih.1, sub_nonneg.mpr (not_lt.mp hB)⟩

/-- Witness for C2 at the freshly created wallet. -/
theorem wallet_balances_nonneg_witness :
    0 ≤ ({ primaryWalletBalance := 0, safeWalletBalance := 0,
           status := .ACTIVE } : Wallet).primaryWalletBalance ∧
    0 ≤ ({ primaryWalletBalance := 0, safeWalletBalance := 0,
           status := .ACTIVE } : Wallet).safeWalletBalance :=
  wallet_balances_nonneg _ ReachableWallet.init

/- ============================ Claim C3 ============================ -/

/-- Claim C3: `debit` either succeeds and decreases the named sub-balance
by exactly the amount (leaving the other sub-balance and the status
untouched), or fails with InsufficientFunds or InvalidAmount leaving the
wallet unchanged; an InsufficientFunds failure happens only when the named
sub-balance is below the amount. -/
theorem debit_spec (w : Wallet) (s : SubWallet) (a : ℚ) :
    ((debit w s a).1 = none →
      subBalance (debit w s a).2 s = subBalance w s - a ∧
      subBalance (debit w s a).2 s.other = subBalance w s.other ∧
      (debit w s a).2.status = w.status) ∧
    (∀ e, (debit w s a).1 = some e →
      (debit w s a).2 = w ∧
      (e = WalletError.insufficientFunds ∨ e = WalletError.invalidAmount)) ∧
    ((debit w s a).1 = some WalletError.insufficientFunds → subBalance w s < a) := by
  cases s with
  | PRIMARY =>
      by_cases hA : a < 0
      · refine ⟨?_, ?_, ?_⟩ <;>
          simp [debit, subtractFromPrimaryBalance, hA, subBalance, SubWallet.other]
      · by_cases hB : w.primaryWalletBalance < a
        · refine ⟨?_, ?_, ?_⟩ <;>
            simp [debit, subtractFromPrimaryBalance, hA, hB, subBalance, SubWallet.other]
        · refine ⟨?_, ?_, ?_⟩ <;>
            simp [debit, subtractFromPrimaryBalance, hA, hB, subBalance, SubWallet.other]
  | SAFE =>
      by_cases hA : a < 0
      · refine ⟨?_, ?_, ?_⟩ <;>
          simp [debit, subtractFromSafeBalance, hA, subBalance, SubWallet.other]
      · by_cases hB : w.safeWalletBalance < a
        · refine ⟨?_, ?_, ?_⟩ <;>
            simp [debit, subtractFromSafeBalance, hA, hB, subBalance, SubWallet.other]
        · refine ⟨?_, ?_, ?_⟩ <;>
            simp [debit, subtractFromSafeBalance, hA, hB, subBalance, SubWallet.other]

/-- Witness for C3: a successful debit of 30 from primary balance 100,
and an InsufficientFunds debit of 30 against primary balance 20. -/
theorem debit_spec_witness :
    subBalance (debit ⟨100, 50, .ACTIVE⟩ .PRIMARY 30).2 .PRIMARY = 100 - 30 ∧
    subBalance (debit ⟨100, 50, .ACTIVE⟩ .PRIMARY 30).2 .SAFE = 50 ∧
    (debit ⟨20, 0, .ACTIVE⟩ .PRIMARY 30).2 = (⟨20, 0, .ACTIVE⟩ : Wallet) ∧
    subBalance (⟨20, 0, .ACTIVE⟩ : Wallet) .PRIMARY < 30 := by
  have h1 := debit_spec ⟨100, 50, .ACTIVE⟩ .PRIMARY 30
  have h2 := debit_spec ⟨20, 0, .ACTIVE⟩ .PRIMARY 30
  have e1 : (debit ⟨100, 50, .ACTIVE⟩ .PRIMARY 30).1 = none := by
    norm_num [debit, subtractFromPrimaryBalance]
  have e2 : (debit ⟨20, 0, .ACTIVE⟩ .PRIMARY 30).1 = some WalletError.insufficientFunds := by
    norm_num [debit, subtractFromPrimaryBalance]
  exact ⟨(h1.1 e1).1, (h1.1 e1).2.1, (h2.2.1 _ e2).1, h2.2.2 e2⟩

/- ============================ Claim C5 ============================ -/

/-- Counterexample to C5 as stated: at amount exactly 0 a credit is
accepted, not rejected with InvalidAmount. -/
theorem credit_zero_not_invalid_cex :
    (0 : ℚ) ≤ 0 ∧
    (credit ⟨0, 0, .ACTIVE⟩ .PRIMARY 0).1 ≠ some WalletError.invalidAmount := by
  refine ⟨le_refl 0, ?_⟩
  have h0 : (credit ⟨0, 0, .ACTIVE⟩ .PRIMARY 0).1 = none := by
    norm_num [credit, addToPrimaryBalance]
  simp [h0]

/-- Claim C5 as amended: credit and debit fail with InvalidAmount exactly
for strictly negative amounts, leaving the wallet unchanged; amount 0 is
accepted. -/
theorem negative_amount_invalid (w : Wallet) (s : SubWallet) (a : ℚ) :
    (a < 0 →
      credit w s a = (some WalletError.invalidAmount, w) ∧
      debit w s a = (some WalletError.invalidAmount, w)) ∧
    ((credit w s a).1 = some WalletError.invalidAmount → a < 0) ∧
    ((debit w s a).1 = some WalletError.invalidAmount → a < 0) := by
  cases s with
  | PRIMARY =>
      by_cases hA : a < 0
      · refine ⟨fun _ => ?_, fun _ => hA, fun _ => hA⟩
        simp [credit, debit, addToPrimaryBalance, subtractFromPrimaryBalance, hA]
      · by_cases hB : w.primaryWalletBalance < a
        · refine ⟨fun h => absurd h hA, ?_, ?_⟩ <;>
            simp [credit, debit, addToPrimaryBalance, subtractFromPrimaryBalance, hA, hB]
        · refine ⟨fun h => absurd h hA, ?_, ?_⟩ <;>
            simp [credit, debit, addToPrimaryBalance, subtractFromPrimaryBalance, hA, hB]
  | SAFE =>
      by_cases hA : a < 0
      · refine ⟨fun _ => ?_, fun _ => hA, fun _ => hA⟩
        simp [credit, debit, addToSafeBalance, subtractFromSafeBalance, hA]
      · by_cases hB : w.safeWalletBalance < a
        · refine ⟨fun h => absurd h hA, ?_, ?_⟩ <;>
            simp [credit, debit, addToSafeBalance, subtractFromSafeBalance, hA, hB]
        · refine ⟨fun h => absurd h hA, ?_, ?_⟩ <;>
            simp [credit, debit, addToSafeBalance, subtractFromSafeBalance, hA, hB]

/-- Witness for amended C5 at amount -1. -/
theorem negative_amount_invalid_witness :
    credit ⟨3, 4, .ACTIVE⟩ .PRIMARY (-1) =
      (some WalletError.invalidAmount, (⟨3, 4, .ACTIVE⟩ : Wallet)) ∧
    debit ⟨3, 4, .ACTIVE⟩ .PRIMARY (-1) =
      (some WalletError.invalidAmount, (⟨3, 4, .ACTIVE⟩ : Wallet)) :=
  (negative_amount_invalid ⟨3, 4, .ACTIVE⟩ .PRIMARY (-1)).1 (by norm_num)

/- ============================ Claim C10 ============================ -/

/-- Claim C10: crediting amount exactly 0 is accepted and is an identity
on the wallet state (both sub-balances and the status unchanged). -/
theorem credit_zero_identity (w : Wallet) (s : SubWallet) : credit w s 0 = (none, w) := by
  cases s <;> simp [credit, addToPrimaryBalance, addToSafeBalance]

/- ============================ Claim C1 ============================ -/

/-- Counterexample to C1 as stated: `markAsFailed` on a COMPLETED (hence
terminal) transaction succeeds and changes the status, instead of failing
with IllegalStateTransition and leaving the status unchanged. -/
theorem terminal_transition_not_blocked_cex :
    TransactionStatus.isTerminal txn0.status = true ∧
    Transaction.markAsFailed txn0 =
      .ok { txn0 with status := TransactionStatus.FAILED } ∧
    ({ txn0 with status := TransactionStatus.FAILED } : Transaction).status ≠ txn0.status :=
  ⟨rfl, rfl, by decide⟩

/-- Claim C1 as amended: none of the transition operations checks the
current status; each succeeds on every record — terminal or not — and
unconditionally overwrites the status (plus timestamp/reason fields);
no IllegalStateTransition is ever raised. -/
theorem transitions_unconditional (t : Transaction) (s : TransactionStatus)
    (p : Payment) (r : TopUp) (now : Instant) (reason : String) :
    Transaction.markAsCompleted t = .ok { t with status := .COMPLETED } ∧
    Transaction.markAsFailed t = .ok { t with status := .FAILED } ∧
    Transaction.markAsCancelled t = .ok { t with status := .CANCELLED } ∧
    Transaction.updateStatus t s = .ok { t with status := s } ∧
    Payment.complete p now = .ok { p with status := .COMPLETED, actionTime := some now } ∧
    Payment.fail p now reason =
      .ok { p with status := .FAILED, actionTime := some now, actionReason := some reason } ∧
    TopUp.approve r now = .ok { r with status := .SUCCESS, approvalTime := some now } ∧
    TopUp.reject r now reason =
      .ok { r with status := .REJECTED, rejectionTime := some now, rejectionReason := some reason } :=
  ⟨rfl, rfl, rfl, rfl, rfl, rfl, rfl, rfl⟩

/- ============================ Claim C7 ============================ -/

/-- Counterexample to C7 as stated: `fail(reason)` on an already-FAILED
payment is not rejected; it succeeds and overwrites the original
`actionReason` (and `actionTime`). -/
theorem fail_on_failed_overwrites_cex :
    pay0.status = PaymentStatus.FAILED ∧
    Payment.fail pay0 22 "second reason" =
      .ok { pay0 with actionTime := some 22, actionReason := some "second reason" } ∧
    (some "second reason" : Option String) ≠ pay0.actionReason :=
  ⟨rfl, rfl, by decide⟩

/-- Claim C7 as amended: `fail(reason)` on an already-FAILED payment
succeeds; the status stays FAILED, while `actionTime` and `actionReason`
are overwritten with the new values (the original reason is lost). -/
theorem fail_on_failed_payment (p : Payment) (now : Instant) (reason : String)
    (h : p.status = PaymentStatus.FAILED) :
    Payment.fail p now reason =
      .ok { p with actionTime := some now, actionReason := some reason } := by
  cases p
  cases h
  rfl

/-- Witness for amended C7 at a concrete failed payment. -/
theorem fail_on_failed_payment_witness :
    Payment.fail pay0 22 "second reason" =
      .ok { pay0 with actionTime := some 22, actionReason := some "second reason" } :=
  fail_on_failed_payment pay0 22 "second reason" rfl

/- ============================ Claim C4 ============================ -/

/-- Counterexample to C4 as stated: a second `approve()` on an already
SUCCESS request does not fail with IllegalStateTransition; it succeeds
and refreshes `approvalTime` (and `approve` credits no wallet: it takes
no wallet and returns only the updated request). -/
theorem second_approve_succeeds_cex :
    TopUp.approve topup0 10 = .ok topup1 ∧
    topup1.status = TopUpStatus.SUCCESS ∧
    TopUp.approve topup1 20 = .ok { topup1 with approvalTime := some 20 } :=
  ⟨rfl, rfl, rfl⟩

/-- Claim C4 as amended: `approve()` sets status SUCCESS and
`approvalTime` and changes nothing else — in particular it credits no
wallet, which is outside its signature — and a second `approve()` also
succeeds, leaving status SUCCESS and overwriting `approvalTime`. -/
theorem approve_sets_success_only (r : TopUp) (now now2 : Instant) :
    TopUp.approve r now = .ok { r with status := .SUCCESS, approvalTime := some now } ∧
    TopUp.approve { r with status := TopUpStatus.SUCCESS, approvalTime := some now } now2 =
      .ok { r with status := .SUCCESS, approvalTime := some now2 } :=
  ⟨rfl, rfl⟩

/- ============================ Claim C8 ============================ -/

/-- Claim C8 (against the spec-modelled `resolve`, the implementation
being absent from the sources): FLAT returns the configured flat fee;
PERCENTAGE returns `amount * fee / 100` clamped into
[minAmount, maxAmount], the `anyUpperLimit` flag dropping the ceiling;
at 2 percent with bounds [5, 50], amount 1000 resolves to 20 and amount
100 resolves to 5. -/
theorem resolve_spec (fid : String) (pt : PaymentType) (fee minA maxA : ℚ) (amount : ℚ) :
    resolve ⟨fid, pt, .FLAT, fee, minA, maxA, false⟩ amount = fee ∧
    resolve ⟨fid, pt, .FLAT, fee, minA, maxA, true⟩ amount = fee ∧
    resolve ⟨fid, pt, .PERCENTAGE, fee, minA, maxA, false⟩ amount =
      min maxA (max minA (amount * fee / 100)) ∧
    resolve ⟨fid, pt, .PERCENTAGE, fee, minA, maxA, true⟩ amount =
      max minA (amount * fee / 100) ∧
    resolve ⟨fid, pt, .PERCENTAGE, 2, 5, 50, false⟩ 1000 = 20 ∧
    resolve ⟨fid, pt, .PERCENTAGE, 2, 5, 50, false⟩ 100 = 5 := by
  refine ⟨rfl, rfl, rfl, rfl, ?_, ?_⟩ <;> norm_num [resolve]

/- ============================ Claim C9 ============================ -/

def uuid0 : String := "3f2a9c81-aaaa-bbbb-cccc-ddddeeeeffff"

/-- Counterexample to C9 as stated: the KYC identifier carries no date
component — the hook computes the `yymmdd` salt but assigns only the
prefix and the token, so the generated identifier differs from the
prefix-date-token shape the claim requires. -/
theorem kyc_id_has_no_date_cex :
    genKycId 2025 10 11 uuid0 ≠
      String.mk ("KYC".data ++ dateCode 2025 10 11 ++ tokenOf uuid0) := by
  decide

/-- Claim C9 as amended: transaction, payment and top-up identifiers are
the fixed prefix (TXN, PAY, TOPUP) followed by the 2-digit year, 2-digit
month and 2-digit day (each a zero-padded decimal rendering of the date
parts) then — for transactions — the type letter C or D, then the
8-character uppercased random token; the KYC identifier is the prefix KYC
followed directly by the 8-character token, with no date component. -/
theorem salted_id_format (y m d : Nat) (ty : TransactionType) (uuid : String)
    (hy1 : 1000 ≤ y) (hy2 : y ≤ 9999) (hm1 : 1 ≤ m) (hm2 : m ≤ 12)
    (hd1 : 1 ≤ d) (hd2 : d ≤ 31) (hu : 8 ≤ uuid.data.length) :
    (genTransactionId y m d ty uuid).data =
      "TXN".data ++ yearCode y ++ pad2 m ++ pad2 d ++ [typeChar ty] ++ tokenOf uuid ∧
    (yearCode y).length = 2 ∧ parseL (yearCode y) = y % 100 ∧
    (pad2 m).length = 2 ∧ parseL (pad2 m) = m ∧
    (pad2 d).length = 2 ∧ parseL (pad2 d) = d ∧
    (tokenOf uuid).length = 8 ∧
    (genPaymentId y m d uuid).data =
      "PAY".data ++ yearCode y ++ pad2 m ++ pad2 d ++ tokenOf uuid ∧
    (genTopUpRequestId y m d uuid).data =
      "TOPUP".data ++ yearCode y ++ pad2 m ++ pad2 d ++ tokenOf uuid ∧
    (genKycId y m d uuid).data = "KYC".data ++ tokenOf uuid := by
  have hyc := yearCode_spec y hy1 hy2
  refine ⟨?_, hyc.1, hyc.2, pad2_length m (by omega), pad2_parse m,
    pad2_length d (by omega), pad2_parse d, tokenOf_length uuid hu, ?_, ?_, rfl⟩ <;>
    simp [genTransactionId, genPaymentId, genTopUpRequestId, dateCode, List.append_assoc]

/-- Witness for amended C9 on the eleventh of October 2025. -/
theorem salted_id_format_witness :
    parseL (yearCode 2025) = 2025 % 100 ∧ (tokenOf uuid0).length = 8 ∧
    (genKycId 2025 10 11 uuid0).data = "KYC".data ++ tokenOf uuid0 := by
  have h := salted_id_format 2025 10 11 .CREDIT uuid0 (by norm_num) (by norm_num)
    (by norm_num) (by norm_num) (by norm_num) (by norm_num) (by decide)
  exact ⟨h.2.2.1, h.2.2.2.2.2.2.2.1, h.2.2.2.2.2.2.2.2.2.2⟩

/- ================= Lemmas on the sequential allocator ================= -/

theorem lexLt_eq_decide_parse :
    ∀ l r : List Char, l.length = r.length →
      (∀ c ∈ l, isDigitChar c = true) → (∀ c ∈ r, isDigitChar c = true) →
      lexLt l r = decide (parseL l < parseL r) := by
  intro l
  induction l with
  | nil =>
      intro r hlen _ _
      cases r with
      | nil => simp [lexLt, parseL]
      | cons b bs => simp at hlen
  | cons a as ih =>
      intro r hlen hdl hdr
      cases r with
      | nil => simp at hlen
      | cons b bs =>
          have hlen' : as.length = bs.length := by simpa using hlen
          have hda : isDigitChar a = true := hdl a (by simp)
          have hdb : isDigitChar b = true := hdr b (by simp)
          have hva : digitVal a ≤ 9 := digitVal_le_nine a hda
          have hvb : digitVal b ≤ 9 := digitVal_le_nine b hdb
          have hpas : parseL as < 10 ^ as.length :=
            parseL_lt as (fun c hc => hdl c (by simp [hc]))
          have hpbs : parseL bs < 10 ^ bs.length :=
            parseL_lt bs (fun c hc => hdr c (by simp [hc]))
          have h48a : 48 ≤ a.toNat ∧ a.toNat ≤ 57 := by
            simpa [isDigitChar, Bool.and_eq_true, decide_eq_true_eq] using hda
          have h48b : 48 ≤ b.toNat ∧ b.toNat ≤ 57 := by
            simpa [isDigitChar, Bool.and_eq_true, decide_eq_true_eq] using hdb
          rw [parseL_cons, parseL_cons, hlen']
          by_cases hab : a.toNat < b.toNat
          · have hv : digitVal a < digitVal b := by
              simp only [digitVal]; omega
            have hlt : digitVal a * 10 ^ bs.length + parseL as <
                digitVal b * 10 ^ bs.length + parseL bs := by
              have hK : 0 < 10 ^ bs.length := pow_pos (by norm_num) _
              have hpas' : parseL as < 10 ^ bs.length := by rw [← hlen']; exact hpas
              calc digitVal a * 10 ^ bs.length + parseL as
                  < digitVal a * 10 ^ bs.length + 10 ^ bs.length := by omega
                _ = (digitVal a + 1) * 10 ^ bs.length := by ring
                _ ≤ digitVal b * 10 ^ bs.length :=
                    Nat.mul_le_mul_right _ (by omega)
                _ ≤ digitVal b * 10 ^ bs.length + parseL bs := Nat.le_add_right _ _
            simp [lexLt, hab, hlt]
          · by_cases hba : b.toNat < a.toNat
            · have hv : digitVal b < digitVal a := by
                simp only [digitVal]; omega
              have hlt : digitVal b * 10 ^ bs.length + parseL bs <
                  digitVal a * 10 ^ bs.length + parseL as := by
                have hK : 0 < 10 ^ bs.length := pow_pos (by norm_num) _
                calc digitVal b * 10 ^ bs.length + parseL bs
                    < digitVal b * 10 ^ bs.length + 10 ^ bs.length := by
                      have := hpbs
                      omega
                  _ = (digitVal b + 1) * 10 ^ bs.length := by ring
                  _ ≤ digitVal a * 10 ^ bs.length :=
                      Nat.mul_le_mul_right _ (by omega)
                  _ ≤ digitVal a * 10 ^ bs.length + parseL as := Nat.le_add_right _ _
              have hnot : ¬ (digitVal a * 10 ^ bs.length + parseL as <
                  digitVal b * 10 ^ bs.length + parseL bs) := by omega
              simp [lexLt, hab, hba, hnot]
            · have hveq : digitVal a = digitVal b := by
                simp only [digitVal]; omega
              have htail := ih bs hlen' (fun c hc => hdl c (by simp [hc]))
                (fun c hc => hdr c (by simp [hc]))
              have hiff : (digitVal a * 10 ^ bs.length + parseL as <
                  digitVal b * 10 ^ bs.length + parseL bs) ↔ parseL as < parseL bs := by
                rw [hveq]
                exact Nat.add_lt_add_iff_left
              simp only [lexLt, hab, if_false, hba]
              rw [htail]
              simp [hiff]

/-- Destructor for the shape guaranteed by the allocator's regex. -/
theorem matchesSW_elim (w : Nat) (s : String) (h : matchesSW w s = true) :
    ∃ ds, s.data = 'S' :: 'W' :: ds ∧ ds.length = w ∧ ∀ c ∈ ds, isDigitChar c = true := by
  simp only [matchesSW, Bool.and_eq_true, beq_iff_eq, List.all_eq_true] at h
  obtain ⟨⟨h1, h2⟩, h3⟩ := h
  refine ⟨s.data.drop 2, ?_, h2, h3⟩
  conv_lhs => rw [← List.take_append_drop 2 s.data]
  rw [h1]
  rfl

theorem keyOf_data (s : String) (ds : List Char) (h : s.data = 'S' :: 'W' :: ds) :
    keyOf s = parseL ds := by
  simp [keyOf, h]

theorem strLtB_eq_key (w : Nat) (s t : String)
    (hs : matchesSW w s = true) (ht : matchesSW w t = true) :
    strLtB s t = decide (keyOf s < keyOf t) := by
  obtain ⟨ds, hds, hlds, hdigs⟩ := matchesSW_elim w s hs
  obtain ⟨dt, hdt, hldt, hdigt⟩ := matchesSW_elim w t ht
  have hlen : ds.length = dt.length := by rw [hlds, hldt]
  rw [strLtB, hds, hdt, keyOf_data s ds hds, keyOf_data t dt hdt]
  have hS : ¬ ('S'.toNat < 'S'.toNat) := by omega
  have hW : ¬ ('W'.toNat < 'W'.toNat) := by omega
  simp only [lexLt, hS, if_false, hW]
  exact lexLt_eq_decide_parse ds dt hlen hdigs hdigt

theorem foldl_pickLater_key (w : Nat) (l : List String) :
    ∀ a : String, matchesSW w a = true → (∀ x ∈ l, matchesSW w x = true) →
      ∃ m, l.foldl pickLater (some a) = some m ∧ matchesSW w m = true ∧
        keyOf m = (l.map keyOf).foldl max (keyOf a) := by
  induction l with
  | nil => intro a ha _; exact ⟨a, rfl, ha, rfl⟩
  | cons s l ih =>
      intro a ha hall
      have hs : matchesSW w s = true := hall s (by simp)
      have hl : ∀ x ∈ l, matchesSW w x = true := fun x hx => hall x (by simp [hx])
      show ∃ m, l.foldl pickLater (pickLater (some a) s) = some m ∧ _ ∧ _
      rw [show pickLater (some a) s = if strLtB a s then some s else some a from rfl]
      rw [strLtB_eq_key w a s ha hs]
      by_cases h : keyOf a < keyOf s
      · obtain ⟨m, hm, hmm, hk⟩ := ih s hs hl
        refine ⟨m, by simp [h, hm], hmm, ?_⟩
        rw [hk]
        have : max (keyOf a) (keyOf s) = keyOf s := Nat.max_eq_right (le_of_lt h)
        simp [this]
      · obtain ⟨m, hm, hmm, hk⟩ := ih a ha hl
        refine ⟨m, by simp [h, hm], hmm, ?_⟩
        rw [hk]
        have : max (keyOf a) (keyOf s) = keyOf a := Nat.max_eq_left (not_lt.mp h)
        simp [this]

theorem foldl_maxStep_some (l : List Nat) :
    ∀ a : Nat, l.foldl maxStep (some a) = some (l.foldl max a) := by
  induction l with
  | nil => intro a; rfl
  | cons v l ih =>
      intro a
      show l.foldl maxStep (maxStep (some a) v) = _
      rw [show maxStep (some a) v = some (max a v) from rfl, ih (max a v)]
      rfl

theorem lastMatching_empty (w : Nat) (ids : List String)
    (h : ids.filter (matchesSW w) = []) : lastMatching (matchesSW w) ids = none := by
  simp [lastMatching, h]

theorem maxVal_empty (w : Nat) (ids : List String)
    (h : ids.filter (matchesSW w) = []) : maxVal (matchesSW w) ids = none := by
  simp [maxVal, h]

theorem lastMatching_key (w : Nat) (ids : List String)
    (a : String) (l : List String) (hf : ids.filter (matchesSW w) = a :: l) :
    ∃ m, lastMatching (matchesSW w) ids = some m ∧ matchesSW w m = true ∧
      maxVal (matchesSW w) ids = some (keyOf m) := by
  have hall : ∀ x ∈ a :: l, matchesSW w x = true := by
    intro x hx
    have : x ∈ ids.filter (matchesSW w) := by rw [hf]; exact hx
    exact (List.mem_filter.mp this).2
  obtain ⟨m, hm, hmm, hk⟩ := foldl_pickLater_key w l a (hall a (by simp))
    (fun x hx => hall x (by simp [hx]))
  refine ⟨m, ?_, hmm, ?_⟩
  · rw [lastMatching, hf]
    show l.foldl pickLater (pickLater none a) = some m
    exact hm
  · rw [maxVal, hf]
    show ((a :: l).map keyOf).foldl maxStep none = some (keyOf m)
    rw [List.map_cons]
    show (l.map keyOf).foldl maxStep (maxStep none (keyOf a)) = some (keyOf m)
    rw [show maxStep none (keyOf a) = some (keyOf a) from rfl,
      foldl_maxStep_some (l.map keyOf) (keyOf a), hk]

theorem jsPadStart_length (t : Nat) (c : Char) (l : List Char) :
    (jsPadStart t c l).length = max t l.length := by
  simp [jsPadStart]
  omega

theorem jsPadStart_digits (t n : Nat) :
    ∀ c ∈ jsPadStart t '0' (natDigits n), isDigitChar c = true := by
  intro c hc
  simp only [jsPadStart, List.mem_append, List.mem_replicate] at hc
  rcases hc with hc | hc
  · rw [hc.2]; decide
  · exact natDigits_all_digits n c hc

theorem matchesSW_mk (w : Nat) (ds : List Char) (hw : ds.length = w)
    (hd : ∀ c ∈ ds, isDigitChar c = true) :
    matchesSW w (String.mk ('S' :: 'W' :: ds)) = true := by
  simp only [matchesSW, List.take, List.drop, Bool.and_eq_true, beq_iff_eq,
    List.all_eq_true]
  exact ⟨⟨trivial, hw⟩, hd⟩

theorem fmt4_matches (n : Nat) (h : n ≤ 9999) : matchesSW 4 (fmt4 n) = true := by
  refine matchesSW_mk 4 _ ?_ (jsPadStart_digits 4 n)
  rw [jsPadStart_length]
  have := natDigits_len_le 4 n (by omega)
  omega

theorem fmt8_matches (n : Nat) (h : n ≤ 99999999) : matchesSW 8 (fmt8 n) = true := by
  refine matchesSW_mk 8 _ ?_ (jsPadStart_digits 8 n)
  rw [jsPadStart_length]
  have := natDigits_len_le 8 n (by omega)
  omega

theorem fmt8_not_matches4 (n : Nat) : matchesSW 4 (fmt8 n) = false := by
  have hlen : (jsPadStart 8 '0' (natDigits n)).length ≠ 4 := by
    rw [jsPadStart_length]
    omega
  simp only [matchesSW, fmt8, List.take, List.drop, Bool.and_eq_true, beq_iff_eq]
  simp [hlen]

theorem keyOf_fmt4 (n : Nat) : keyOf (fmt4 n) = n := by
  show parseL ((('S' :: 'W' :: jsPadStart 4 '0' (natDigits n)).drop 2)) = n
  show parseL (jsPadStart 4 '0' (natDigits n)) = n
  rw [jsPadStart, parseL_replicate_zero, parseL_natDigits]

theorem keyOf_fmt8 (n : Nat) : keyOf (fmt8 n) = n := by
  show parseL ((('S' :: 'W' :: jsPadStart 8 '0' (natDigits n)).drop 2)) = n
  show parseL (jsPadStart 8 '0' (natDigits n)) = n
  rw [jsPadStart, parseL_replicate_zero, parseL_natDigits]

theorem keyOf_lt (w : Nat) (m : String) (h : matchesSW w m = true) : keyOf m < 10 ^ w := by
  obtain ⟨ds, hds, hlds, hdig⟩ := matchesSW_elim w m h
  rw [keyOf_data m ds hds, ← hlds]
  exact parseL_lt ds hdig

theorem maxVal_some_elim (w : Nat) (ids : List String) (v : Nat)
    (h : maxVal (matchesSW w) ids = some v) :
    ∃ m, lastMatching (matchesSW w) ids = some m ∧ matchesSW w m = true ∧ keyOf m = v := by
  cases hf : ids.filter (matchesSW w) with
  | nil => rw [maxVal_empty w ids hf] at h; exact absurd h (by simp)
  | cons a l =>
      obtain ⟨m, hm, hmm, hmv⟩ := lastMatching_key w ids a l hf
      rw [hmv] at h
      exact ⟨m, hm, hmm, Option.some.inj h⟩

theorem nextSafeId_eq_of_some (ids : List String) (s6 : String)
    (h6 : lastMatching (matchesSW 4) ids = some s6) :
    nextSafeId ids =
      if 9999 ≤ keyOf s6 then
        match lastMatching (matchesSW 8) ids with
        | some s8 => fmt8 (keyOf s8 + 1)
        | none => fmt8 1
      else fmt4 (keyOf s6 + 1) := by
  unfold nextSafeId
  rw [h6]

theorem nextSafeId_eq_of_none (ids : List String)
    (h6 : lastMatching (matchesSW 4) ids = none) :
    nextSafeId ids =
      match lastMatching (matchesSW 8) ids with
      | some s8 => fmt8 (keyOf s8 + 1)
      | none => fmt4 1 := by
  unfold nextSafeId
  rw [h6]

theorem maxVal_cons_not (p : String → Bool) (x : String) (ids : List String)
    (h : p x = false) : maxVal p (x :: ids) = maxVal p ids := by
  unfold maxVal
  rw [List.filter_cons, h]
  simp

/-- After the 4-digit tier is exhausted (or was never populated while
8-digit identifiers exist) the allocator is in the 8-digit regime. -/
def eightState (ids : List String) : Prop :=
  (∃ v, maxVal (matchesSW 4) ids = some v ∧ 9999 ≤ v) ∨
  (ids.filter (matchesSW 4) = [] ∧ ids.filter (matchesSW 8) ≠ [])

/- ============================ Claim C6 ============================ -/

/-- Counterexample to C6 as stated: with the 4-digit tier exhausted and
the 8-digit maximum at 99999999, the allocator hands out SW100000000 —
nine digits wide, not an 8-digit identifier (and invisible to both of the
allocator's regular expressions). -/
theorem eight_digit_overflow_cex :
    maxVal (matchesSW 4) ["SW9999", "SW99999999"] = some 9999 ∧
    maxVal (matchesSW 8) ["SW9999", "SW99999999"] = some 99999999 ∧
    nextSafeId ["SW9999", "SW99999999"] = "SW100000000" ∧
    matchesSW 8 "SW100000000" = false := by
  refine ⟨by decide, by decide, by decide, by decide⟩

/-- Claim C6 as amended: with no identifier allocated the allocator
yields SW0001; while the maximum 4-digit value is below 9999 it yields
that maximum plus one, zero-padded to 4 digits; once the maximum 4-digit
value reaches 9999 it yields SW followed by the maximum existing 8-digit
value plus one zero-padded to 8 digits (SW00000001 when no 8-digit
identifier exists), which is 8 digits wide as long as the 8-digit maximum
is below 99999999; and once in the 8-digit regime the allocator never
returns a 4-digit identifier, the regime persisting after every
allocation. -/
theorem nextSafeId_spec (ids : List String) :
    (ids.filter (matchesSW 4) = [] → ids.filter (matchesSW 8) = [] →
      nextSafeId ids = "SW0001") ∧
    (∀ v, maxVal (matchesSW 4) ids = some v → v < 9999 →
      nextSafeId ids = fmt4 (v + 1) ∧ matchesSW 4 (nextSafeId ids) = true) ∧
    (∀ v, maxVal (matchesSW 4) ids = some v → 9999 ≤ v →
      (ids.filter (matchesSW 8) = [] → nextSafeId ids = "SW00000001") ∧
      (∀ u, maxVal (matchesSW 8) ids = some u →
        nextSafeId ids = fmt8 (u + 1) ∧
        (u < 99999999 → matchesSW 8 (nextSafeId ids) = true))) ∧
    (eightState ids →
      matchesSW 4 (nextSafeId ids) = false ∧ eightState (nextSafeId ids :: ids)) := by
  refine ⟨?_, ?_, ?_, ?_⟩
  · intro h4 h8
    rw [nextSafeId_eq_of_none ids (lastMatching_empty 4 ids h4),
      lastMatching_empty 8 ids h8]
    decide
  · intro v hv hlt
    obtain ⟨m6, hm6, hmm6, hkey⟩ := maxVal_some_elim 4 ids v hv
    rw [nextSafeId_eq_of_some ids m6 hm6, hkey, if_neg (by omega)]
    exact ⟨rfl, fmt4_matches (v + 1) (by omega)⟩
  · intro v hv hge
    obtain ⟨m6, hm6, hmm6, hkey⟩ := maxVal_some_elim 4 ids v hv
    constructor
    · intro h8
      rw [nextSafeId_eq_of_some ids m6 hm6, hkey, if_pos hge,
        lastMatching_empty 8 ids h8]
      decide
    · intro u hu
      obtain ⟨m8, hm8, hmm8, hkey8⟩ := maxVal_some_elim 8 ids u hu
      rw [nextSafeId_eq_of_some ids m6 hm6, hkey, if_pos hge, hm8]
      show fmt8 (keyOf m8 + 1) = fmt8 (u + 1) ∧
        (u < 99999999 → matchesSW 8 (fmt8 (keyOf m8 + 1)) = true)
      rw [hkey8]
      exact ⟨rfl, fun hlt8 => fmt8_matches (u + 1) (by omega)⟩
  · intro hES
    have hnext : ∃ k, nextSafeId ids = fmt8 k := by
      rcases hES with ⟨v, hv, hge⟩ | ⟨h4, h8⟩
      · obtain ⟨m6, hm6, hmm6, hkey⟩ := maxVal_some_elim 4 ids v hv
        rw [nextSafeId_eq_of_some ids m6 hm6, hkey, if_pos hge]
        cases h8m : lastMatching (matchesSW 8) ids with
        | none => exact ⟨1, rfl⟩
        | some s8 => exact ⟨keyOf s8 + 1, rfl⟩
      · rw [nextSafeId_eq_of_none ids (lastMatching_empty 4 ids h4)]
        cases hf8 : ids.filter (matchesSW 8) with
        | nil => exact absurd hf8 h8
        | cons a l =>
            obtain ⟨m8, hm8, hmm8, hkey8⟩ := lastMatching_key 8 ids a l hf8
            rw [hm8]
            exact ⟨keyOf m8 + 1, rfl⟩
    obtain ⟨k, hk⟩ := hnext
    have hnot4 : matchesSW 4 (nextSafeId ids) = false := by
      rw [hk]; exact fmt8_not_matches4 k
    refine ⟨hnot4, ?_⟩
    rcases hES with ⟨v, hv, hge⟩ | ⟨h4, h8⟩
    · exact Or.inl ⟨v, by rw [maxVal_cons_not _ _ _ hnot4]; exact hv, hge⟩
    · refine Or.inr ⟨?_, ?_⟩
      · rw [List.filter_cons, hnot4]
        simpa using h4
      · rw [List.filter_cons]
        cases hf8 : ids.filter (matchesSW 8) with
        | nil => exact absurd hf8 h8
        | cons a l => split <;> simp
  /- end of nextSafeId_spec -/

/-- Witness for amended C6, exercising all four branches. -/
theorem nextSafeId_spec_witness :
    nextSafeId [] = "SW0001" ∧
    nextSafeId ["SW0012", "SW0009"] = fmt4 13 ∧
    nextSafeId ["SW9999"] = "SW00000001" ∧
    nextSafeId ["SW9999", "SW00000005"] = fmt8 6 ∧
    matchesSW 4 (nextSafeId ["SW9999"]) = false := by
  refine ⟨(nextSafeId_spec []).1 rfl rfl,
    ((nextSafeId_spec ["SW0012", "SW0009"]).2.1 12 (by decide) (by decide)).1,
    ((nextSafeId_spec ["SW9999"]).2.2.1 9999 (by decide) (by decide)).1 (by decide),
    (((nextSafeId_spec ["SW9999", "SW00000005"]).2.2.1 9999 (by decide)
      (by decide)).2 5 (by decide)).1,
    ((nextSafeId_spec ["SW9999"]).2.2.2 (Or.inl ⟨9999, by decide, by decide⟩)).1⟩
